import Mathlib

/-!
# Verification of the VBOX telemetry writer

Shallow embedding of the `vbo` crate's core (channel identity, channel
value formatting, the document model, and the serializer in
`src/types.rs`, `src/writer.rs`, `src/error.rs`), together with proofs
of the specification's claims about it.

Floating-point payloads (`f64` in the source) are modelled as exact
rationals; the fixed-precision decimal renderings below compute the
correctly rounded decimal expansion that Rust's fixed-precision float
formatting produces on the concrete values appearing in the claims.
-/

instance {ε α : Type} [DecidableEq ε] [DecidableEq α] : DecidableEq (Except ε α) := fun x y =>
  match x, y with
  | .ok a, .ok b => if h : a = b then .isTrue (by simp [h]) else .isFalse (by simp [h])
  | .error a, .error b => if h : a = b then .isTrue (by simp [h]) else .isFalse (by simp [h])
  | .ok _, .error _ => .isFalse (by simp)
  | .error _, .ok _ => .isFalse (by simp)

namespace Vbo

/-- Decimal digit character, `n < 10` intended. -/
def digitChar (n : Nat) : Char :=
  Char.ofNat (48 + n)

/-- Fuel-driven decimal digit list (most significant first). -/
def digitsAux : Nat → Nat → List Char
  | 0, _ => []
  | fuel + 1, n =>
    if n < 10 then [digitChar n]
    else digitsAux fuel (n / 10) ++ [digitChar (n % 10)]

/-- Decimal digit list of a natural number, e.g. `digits 31 = ['3','1']`. -/
def digits (n : Nat) : List Char :=
  digitsAux (n + 1) n

/-- Left-pad a character list with `c` to minimum width `w`.  Models the
Rust `fill '0' / align right / width w` format behaviour. -/
def padLeftL (c : Char) (w : Nat) (l : List Char) : List Char :=
  List.replicate (w - l.length) c ++ l

/-- `⌊|q| * 10^prec + 1/2⌋` as a natural number: the rounded scaled
magnitude used by the fixed-precision decimal renderings. -/
def fixedScaled (prec : Nat) (q : ℚ) : Nat :=
  (2 * q.num.natAbs * 10 ^ prec + q.den) / (2 * q.den)

/-- Unsigned fixed-precision decimal rendering of the magnitude of `q`:
integer digits, a point, `prec` zero-padded fractional digits. -/
def fmtMagL (prec : Nat) (q : ℚ) : List Char :=
  let n := fixedScaled prec q
  digits (n / 10 ^ prec) ++ '.' :: padLeftL '0' prec (digits (n % 10 ^ prec))

/-- Fixed-precision decimal rendering with a `-` sign exactly for
negative values: Rust's `{:.prec}` on a float. -/
def fmtFixedL (prec : Nat) (q : ℚ) : List Char :=
  if q.num < 0 then '-' :: fmtMagL prec q else fmtMagL prec q

/-- Sign-aware zero-padded fixed-precision rendering with a forced sign:
Rust's `{:+0width.prec}` on a float (zeros inserted after the sign). -/
def signedFixedL (width prec : Nat) (q : ℚ) : List Char :=
  (if q.num < 0 then '-' else '+') :: padLeftL '0' (width - 1) (fmtMagL prec q)

/-- Calendar date, as exposed by the external `time` crate. -/
structure Date where
  year : Int
  month : Nat
  day : Nat
deriving DecidableEq

/-- Time of day with nanosecond subseconds, as exposed by the external
`time` crate (`time::Time`). -/
structure Time where
  hour : Nat
  minute : Nat
  second : Nat
  nano : Nat
deriving DecidableEq

/-- A UTC date/time, as exposed by the external `time` crate
(`time::OffsetDateTime` at offset zero, the only offset the source uses). -/
structure OffsetDateTime where
  date : Date
  time : Time
deriving DecidableEq

/-- Civil-from-days conversion (proleptic Gregorian), modelling the
external `time` crate's date arithmetic: days since 1970-01-01 to
`(year, month, day)`. -/
def civilFromDays (z0 : Int) : Int × Nat × Nat :=
  let z := z0 + 719468
  let era := z.fdiv 146097
  let doe := (z - era * 146097).toNat
  let yoe := (doe - doe / 1460 + doe / 36524 - doe / 146096) / 365
  let y := (yoe : Int) + era * 400
  let doy := doe - (365 * yoe + yoe / 4 - yoe / 100)
  let mp := (5 * doy + 2) / 153
  let d := doy - (153 * mp + 2) / 5 + 1
  let m := if mp < 10 then mp + 3 else mp - 9
  (if m ≤ 2 then y + 1 else y, m, d)

/-- `OffsetDateTime::from_unix_timestamp` of the external `time` crate:
seconds since the Unix epoch to a UTC date/time. -/
def fromUnixTimestamp (ts : Int) : OffsetDateTime :=
  let days := ts.fdiv 86400
  let sod := (ts - days * 86400).toNat
  let ymd := civilFromDays days
  { date := { year := ymd.1, month := ymd.2.1, day := ymd.2.2 },
    time := { hour := sod / 3600, minute := sod % 3600 / 60,
              second := sod % 60, nano := 0 } }

/-- Underlying cause of a time-formatting failure
(`time::error::Format` of the external `time` crate). -/
structure FormatCause where
  msg : String
deriving DecidableEq

/-- The date/time formatting capability the source obtains from the
external `time` crate: applying each of the three fixed format
descriptions appearing literally in the source is a fallible operation
(`Date::format` / `Time::format` return a `Result`). -/
structure TimeFmt where
  formatDate : Date → Except FormatCause String
  formatTimeHeader : Time → Except FormatCause String
  formatTimeValue : Time → Except FormatCause String

/-- `core::fmt::Error`: a unit-like error carrying no information. -/
inductive FmtError
  | fmtError
deriving DecidableEq

/-- `ChannelName` (src/types.rs): closed enumeration plus open `Custom`. -/
inductive ChannelName
  | Satellites
  | Time
  | Latitude
  | Longitude
  | Velocity
  | Heading
  | Height
  | LongAccel
  | LatAccel
  | Custom (s : String)
deriving DecidableEq

/-- `ChannelName::as_str` (src/types.rs). -/
def ChannelName.as_str : ChannelName → String
  | .Satellites => "satellites"
  | .Time => "time"
  | .Latitude => "latitude"
  | .Longitude => "longitude"
  | .Velocity => "velocity"
  | .Heading => "heading"
  | .Height => "height"
  | .LongAccel => "long accel"
  | .LatAccel => "lat accel"
  | .Custom s => s

/-- `impl From<&str> for ChannelName` (src/types.rs). -/
def ChannelName.fromStr (s : String) : ChannelName :=
  if s = "satellites" then .Satellites
  else if s = "time" then .Time
  else if s = "latitude" then .Latitude
  else if s = "longitude" then .Longitude
  else if s = "velocity" then .Velocity
  else if s = "heading" then .Heading
  else if s = "height" then .Height
  else if s = "long accel" then .LongAccel
  else if s = "lat accel" then .LatAccel
  else .Custom s

/-- Whether `s` is the canonical string of an enumerated `ChannelName`. -/
def isCanonicalName (s : String) : Bool :=
  decide (s = "satellites" ∨ s = "time" ∨ s = "latitude" ∨ s = "longitude" ∨
    s = "velocity" ∨ s = "heading" ∨ s = "height" ∨ s = "long accel" ∨
    s = "lat accel")

/-- Whether `x` is a `Custom` name whose text shadows a canonical form. -/
def isShadowedName : ChannelName → Bool
  | .Custom s => isCanonicalName s
  | _ => false

/-- `ChannelUnit` (src/types.rs). -/
inductive ChannelUnit
  | Kmh
  | G
  | Custom (s : String)
deriving DecidableEq

/-- `ChannelUnit::as_str` (src/types.rs). -/
def ChannelUnit.as_str : ChannelUnit → String
  | .Kmh => "kmh"
  | .G => "g"
  | .Custom s => s

/-- `impl From<&str> for ChannelUnit` (src/types.rs). -/
def ChannelUnit.fromStr (s : String) : ChannelUnit :=
  if s = "kmh" then .Kmh
  else if s = "g" then .G
  else .Custom s

/-- Whether `s` is the canonical string of an enumerated `ChannelUnit`. -/
def isCanonicalUnit (s : String) : Bool :=
  decide (s = "kmh" ∨ s = "g")

/-- Whether `u` is a `Custom` unit whose text shadows a canonical form. -/
def isShadowedUnit : ChannelUnit → Bool
  | .Custom s => isCanonicalUnit s
  | _ => false

/-- `Channel` (src/types.rs): a name with an optional unit. -/
structure Channel where
  name : ChannelName
  unit : Option ChannelUnit
deriving DecidableEq

/-- `impl fmt::Display for Channel` (src/types.rs): the name, then a
space and the unit when a unit is present. -/
def Channel.display (c : Channel) : String :=
  c.name.as_str ++
    (match c.unit with
     | some u => " " ++ u.as_str
     | none => "")

/-- The external `dms_coordinates::DMS` type: degrees, minutes,
fractional seconds and a hemisphere bearing character. -/
structure DMS where
  degrees : Nat
  minutes : Nat
  seconds : ℚ
  bearing : Char
deriving DecidableEq

/-- `dms_to_minutes` (src/types.rs): signed decimal-minutes value of a
DMS coordinate, positive for bearings N and W. -/
def dms_to_minutes (dms : DMS) : ℚ :=
  let deg := (dms.degrees : ℚ) * 60
  let min := (dms.minutes : ℚ)
  let sec := dms.seconds / 60
  let nw_multiplier : ℚ := if dms.bearing = 'N' ∨ dms.bearing = 'W' then 1 else -1
  (deg + min + sec) * nw_multiplier

/-- `ChannelValue` (src/types.rs). -/
inductive ChannelValue
  | Satellites (n : Nat)
  | Time (t : Time)
  | Coordinates (c : DMS)
  | Velocity (v : ℚ)
  | Heading (v : ℚ)
  | Height (v : ℚ)
deriving DecidableEq

/-- Whether a value is the Time kind. -/
def ChannelValue.isTime : ChannelValue → Bool
  | .Time _ => true
  | _ => false

/-- `impl fmt::Display for ChannelValue` (src/types.rs).  The Time arm
applies the crate formatter and maps its error to the information-free
`fmt::Error` (the source logs the cause and discards it); the other arms
are the fixed-width numeric formats `{:0>3}`, `{:0>+013.6}`, `{:0>7.3}`,
`{:0>6.2}`, `{:0>+08.2}`. -/
def ChannelValue.display (caps : TimeFmt) : ChannelValue → Except FmtError String
  | .Satellites n => .ok ⟨padLeftL '0' 3 (digits n)⟩
  | .Time t =>
    match caps.formatTimeValue t with
    | .error _ => .error .fmtError
    | .ok s => .ok s
  | .Coordinates c => .ok ⟨signedFixedL 13 6 (dms_to_minutes c)⟩
  | .Velocity v => .ok ⟨padLeftL '0' 7 (fmtFixedL 3 v)⟩
  | .Heading v => .ok ⟨padLeftL '0' 6 (fmtFixedL 2 v)⟩
  | .Height v => .ok ⟨signedFixedL 8 2 v⟩

/-- The kind of `std::io::Error` arising inside this core: the error a
`write!` call produces when a `Display` implementation fails (the model's
sink itself never fails). -/
inductive IOErrorKind
  | formatterError
deriving DecidableEq

/-- `Error` (src/error.rs). -/
inductive Error
  | IOError (e : IOErrorKind)
  | TimeFormatError (e : FormatCause)
  | DuplicateChannel (n : ChannelName)
deriving DecidableEq

/-- `Writer` (src/writer.rs): the document model. -/
structure Writer where
  file_creation_time : Option OffsetDateTime
  comment : Option String
  channels : List Channel
  samples : List (List ChannelValue)
deriving DecidableEq

/-- `Writer::new` (src/writer.rs). -/
def Writer.new : Writer :=
  { file_creation_time := none, comment := none, channels := [], samples := [] }

/-- `Writer::set_file_creation_time` (src/writer.rs). -/
def Writer.set_file_creation_time (w : Writer) (t : OffsetDateTime) : Writer :=
  { w with file_creation_time := some t }

/-- `Writer::set_comment` (src/writer.rs). -/
def Writer.set_comment (w : Writer) (c : String) : Writer :=
  { w with comment := some c }

/-- `Writer::add_channel` (src/writer.rs), in state-passing form: the
result of the call together with the document state after the call. -/
def Writer.add_channel (w : Writer) (nw : Channel) : Except Error Unit × Writer :=
  if (w.channels.find? (fun c => c.name == nw.name)).isSome then
    (.error (.DuplicateChannel nw.name), w)
  else
    (.ok (), { w with channels := w.channels ++ [nw] })

/-- `Writer::add_samples` (src/writer.rs). -/
def Writer.add_samples (w : Writer) (line : List ChannelValue) : Writer :=
  { w with samples := w.samples ++ [line] }

/-- One data row of `Writer::write_to`: each value rendered and followed
by a single space, appended to the output accumulated so far.  A failing
`Display` surfaces through `write!` as the formatter-error kind of
`std::io::Error`, converted by `?` into `Error::IOError`. -/
def renderRow (caps : TimeFmt) : List ChannelValue → String → Except Error String
  | [], acc => .ok acc
  | v :: vs, acc =>
    match v.display caps with
    | .error _ => .error (.IOError .formatterError)
    | .ok s => renderRow caps vs (acc ++ s ++ " ")

/-- The data rows of `Writer::write_to`: each row followed by a newline. -/
def renderRows (caps : TimeFmt) : List (List ChannelValue) → String → Except Error String
  | [], acc => .ok acc
  | r :: rs, acc =>
    match renderRow caps r acc with
    | .error e => .error e
    | .ok acc2 => renderRows caps rs (acc2 ++ "\n")

/-- `Writer::write_to` (src/writer.rs): render the document to the sink
in the fixed five-section layout.  `now` is the injected current time
used only when no creation time is set.  The sink is modelled as the
returned string; date/time formatting failures surface as
`Error::TimeFormatError` via `?`. -/
def Writer.write_to (w : Writer) (caps : TimeFmt) (now : OffsetDateTime) : Except Error String :=
  let date_time := w.file_creation_time.getD now
  match caps.formatDate date_time.date with
  | .error e => .error (.TimeFormatError e)
  | .ok date =>
    match caps.formatTimeHeader date_time.time with
    | .error e => .error (.TimeFormatError e)
    | .ok time =>
      let out := "File created on " ++ date ++ " at " ++ time ++ "\n\n"
      let out := out ++ "[header]\n"
      let out := out ++ String.join (w.channels.map (fun c => c.display ++ "\n"))
      let out := out ++ "\n"
      let out := out ++
        (match w.comment with
         | some c => "[comments]\n" ++ c ++ "\n\n"
         | none => "")
      let out := out ++ "[column names]\n"
      let out := out ++ String.join (w.channels.map (fun c => c.name.as_str ++ " "))
      let out := out ++ "\n\n"
      let out := out ++ "[data]\n"
      match renderRows caps w.samples out with
      | .error e => .error e
      | .ok out2 => .ok (out2 ++ "\n")

/-- The `time` crate's rendering of the source's date pattern
`[day]/[month]/[year repr:full]`, all zero-padded. -/
def formatDateImpl (d : Date) : String :=
  ⟨padLeftL '0' 2 (digits d.day) ++ '/' ::
    (padLeftL '0' 2 (digits d.month) ++ '/' ::
      (if d.year < 0 then '-' :: padLeftL '0' 4 (digits d.year.natAbs)
       else padLeftL '0' 4 (digits d.year.natAbs)))⟩

/-- The `time` crate's rendering of the source's header time pattern
`[hour]:[minute]:[second]`, all zero-padded. -/
def formatTimeHeaderImpl (t : Time) : String :=
  ⟨padLeftL '0' 2 (digits t.hour) ++ ':' ::
    (padLeftL '0' 2 (digits t.minute) ++ ':' :: padLeftL '0' 2 (digits t.second))⟩

/-- The `time` crate's rendering of the source's channel-value time
pattern `[hour][minute][second].[subsecond digits:2]`. -/
def formatTimeValueImpl (t : Time) : String :=
  ⟨padLeftL '0' 2 (digits t.hour) ++ padLeftL '0' 2 (digits t.minute) ++
    padLeftL '0' 2 (digits t.second) ++ '.' :: padLeftL '0' 2 (digits (t.nano / 10000000))⟩

/-- The concrete date/time capability: the external `time` crate's
formatting, which succeeds on every well-formed date and time for the
three fixed patterns the source uses. -/
def timeFmtImpl : TimeFmt :=
  { formatDate := fun d => .ok (formatDateImpl d),
    formatTimeHeader := fun t => .ok (formatTimeHeaderImpl t),
    formatTimeValue := fun t => .ok (formatTimeValueImpl t) }

/-- A fixed reference point for the injected current time. -/
def now0 : OffsetDateTime :=
  fromUnixTimestamp 0

/-- The document of the end-to-end date test: only a creation time,
Unix timestamp 1641469669. -/
def docHeaderOnly : Writer :=
  Writer.new.set_file_creation_time (fromUnixTimestamp 1641469669)

/-- The document of the end-to-end content test: channels
`Satellites` (no unit) and `Custom "Hello"` (unit G), one sample row
`Satellites 0, Velocity 10.0`. -/
def docTwoChannels : Writer :=
  (((docHeaderOnly.add_channel { name := .Satellites, unit := none }).2.add_channel
      { name := .Custom "Hello", unit := some .G }).2.add_samples
    [.Satellites 0, .Velocity 10])

/-- A document holding both `Satellites` and `Custom "satellites"`:
structurally distinct names with the same rendered text. -/
def docShadow : Writer :=
  ((docHeaderOnly.add_channel { name := .Satellites, unit := none }).2.add_channel
    { name := .Custom "satellites", unit := none }).2

/-- A document whose only sample row contains a Time-kind value. -/
def docWithTime : Writer :=
  ((docHeaderOnly.add_channel { name := .Time, unit := none }).2.add_samples
    [.Time { hour := 12, minute := 0, second := 0, nano := 0 }])

/-- A capability whose channel-value time formatting always fails. -/
def capsTimeFail : TimeFmt :=
  { timeFmtImpl with formatTimeValue := fun _ => .error { msg := "invalid component" } }

/-- A capability whose date formatting always fails. -/
def capsDateFail : TimeFmt :=
  { timeFmtImpl with formatDate := fun _ => .error { msg := "bad date" } }

/-- A capability whose header time formatting always fails. -/
def capsHeaderTimeFail : TimeFmt :=
  { timeFmtImpl with formatTimeHeader := fun _ => .error { msg := "bad time" } }

/-- Whether an error value is of the time-format kind. -/
def Error.isTimeFormat : Error → Bool
  | .TimeFormatError _ => true
  | _ => false

/-- Whether a serialization result is a time-format-kind error. -/
def resultIsTimeFormat : Except Error String → Bool
  | .error e => e.isTimeFormat
  | .ok _ => false

lemma padLeftL_length (c : Char) (w : Nat) (l : List Char) :
    (padLeftL c w l).length = max w l.length := by
  simp only [padLeftL, List.length_append, List.length_replicate]
  omega

lemma mem_padLeftL {c fill : Char} {w : Nat} {l : List Char}
    (h : c ∈ padLeftL fill w l) : c = fill ∨ c ∈ l := by
  simp only [padLeftL, List.mem_append] at h
  rcases h with h | h
  · exact Or.inl (List.eq_of_mem_replicate h)
  · exact Or.inr h

lemma mem_padLeftL_of_mem {c fill : Char} {w : Nat} {l : List Char}
    (h : c ∈ l) : c ∈ padLeftL fill w l := by
  simp only [padLeftL, List.mem_append]
  exact Or.inr h

lemma digitChar_isDigit {k : Nat} (h : k < 10) : (digitChar k).isDigit = true := by
  interval_cases k <;> decide

lemma mem_digitsAux {f n : Nat} {c : Char} (h : c ∈ digitsAux f n) :
    ∃ k, k < 10 ∧ c = digitChar k := by
  induction f generalizing n with
  | zero => simp [digitsAux] at h
  | succ f ih =>
    rw [digitsAux] at h
    by_cases h10 : n < 10
    · rw [if_pos h10] at h
      simp only [List.mem_singleton] at h
      exact ⟨n, h10, h⟩
    · rw [if_neg h10] at h
      rcases List.mem_append.mp h with h2 | h2
      · exact ih h2
      · simp only [List.mem_singleton] at h2
        exact ⟨n % 10, Nat.mod_lt _ (by norm_num), h2⟩

lemma mem_digits_isDigit {n : Nat} {c : Char} (h : c ∈ digits n) : c.isDigit = true := by
  obtain ⟨k, hk, rfl⟩ := mem_digitsAux h
  exact digitChar_isDigit hk

lemma digitsAux_length_le : ∀ {f n k : Nat}, n < f → n < 10 ^ k → 1 ≤ k →
    (digitsAux f n).length ≤ k := by
  intro f
  induction f with
  | zero => intro n k h; omega
  | succ f ih =>
    intro n k hf hnk hk
    rw [digitsAux]
    by_cases h10 : n < 10
    · rw [if_pos h10]
      simpa using hk
    · rw [if_neg h10]
      have hk2 : 2 ≤ k := by
        by_contra hcon
        have : k = 1 := by omega
        subst this
        simp at hnk
        omega
      have hdiv : n / 10 < 10 ^ (k - 1) := by
        rw [Nat.div_lt_iff_lt_mul (by norm_num)]
        calc n < 10 ^ k := hnk
        _ = 10 ^ (k - 1) * 10 := by
          rw [← pow_succ]
          congr 1
          omega
      have hfd : n / 10 < f := by
        have : n / 10 < n := Nat.div_lt_self (by omega) (by norm_num)
        omega
      have := ih hfd hdiv (by omega)
      simp only [List.length_append, List.length_singleton]
      omega

lemma digits_length_le {n k : Nat} (h : n < 10 ^ k) (hk : 1 ≤ k) :
    (digits n).length ≤ k :=
  digitsAux_length_le (Nat.lt_succ_self n) h hk

lemma padLeftL_digits_length_eq {p n : Nat} (hp : 1 ≤ p) (h : n < 10 ^ p) :
    (padLeftL '0' p (digits n)).length = p := by
  rw [padLeftL_length]
  have := digits_length_le h hp
  omega

lemma mem_padLeftL_digits_isDigit {p n : Nat} {c : Char}
    (h : c ∈ padLeftL '0' p (digits n)) : c.isDigit = true := by
  rcases mem_padLeftL h with rfl | h2
  · decide
  · exact mem_digits_isDigit h2

lemma fmtMagL_eq (p : Nat) (q : ℚ) :
    fmtMagL p q = digits (fixedScaled p q / 10 ^ p) ++
      '.' :: padLeftL '0' p (digits (fixedScaled p q % 10 ^ p)) := rfl

lemma fmtMagL_length {p : Nat} (q : ℚ) (hp : 1 ≤ p) :
    (fmtMagL p q).length = (digits (fixedScaled p q / 10 ^ p)).length + 1 + p := by
  rw [fmtMagL_eq]
  simp only [List.length_append, List.length_cons]
  rw [padLeftL_digits_length_eq hp (Nat.mod_lt _ (Nat.pos_pow_of_pos p (by norm_num)))]
  omega

lemma mem_fmtMagL {p : Nat} {q : ℚ} {c : Char} (h : c ∈ fmtMagL p q) :
    c.isDigit = true ∨ c = '.' := by
  rw [fmtMagL_eq] at h
  rcases List.mem_append.mp h with h2 | h2
  · exact Or.inl (mem_digits_isDigit h2)
  · rcases List.mem_cons.mp h2 with rfl | h3
    · exact Or.inr rfl
    · exact Or.inl (mem_padLeftL_digits_isDigit h3)

/-- The unsigned fixed renderings (`{:0>w.p}`): minimum width `w`. -/
lemma unsignedFmt_min_length (w p : Nat) (v : ℚ) :
    w ≤ (padLeftL '0' w (fmtFixedL p v)).length := by
  rw [padLeftL_length]
  exact Nat.le_max_left _ _

lemma mem_fmtFixedL {p : Nat} {v : ℚ} {c : Char} (h : c ∈ fmtFixedL p v) :
    c.isDigit = true ∨ c = '.' ∨ (c = '-' ∧ v.num < 0) := by
  rw [fmtFixedL] at h
  by_cases hneg : v.num < 0
  · rw [if_pos hneg] at h
    rcases List.mem_cons.mp h with rfl | h2
    · exact Or.inr (Or.inr ⟨rfl, hneg⟩)
    · rcases mem_fmtMagL h2 with h3 | h3
      · exact Or.inl h3
      · exact Or.inr (Or.inl h3)
  · rw [if_neg hneg] at h
    rcases mem_fmtMagL h with h3 | h3
    · exact Or.inl h3
    · exact Or.inr (Or.inl h3)

/-- No `+` ever appears in the unsigned fixed renderings. -/
lemma unsignedFmt_no_plus (w p : Nat) (v : ℚ) :
    '+' ∉ padLeftL '0' w (fmtFixedL p v) := by
  intro h
  rcases mem_padLeftL h with h2 | h2
  · exact absurd h2 (by decide)
  · rcases mem_fmtFixedL h2 with h3 | h3 | h3
    · exact absurd h3 (by decide)
    · exact absurd h3 (by decide)
    · exact absurd h3.1 (by decide)

/-- A `-` appears in the unsigned fixed renderings exactly for negative values. -/
lemma unsignedFmt_minus_iff (w p : Nat) (v : ℚ) :
    '-' ∈ padLeftL '0' w (fmtFixedL p v) ↔ v.num < 0 := by
  constructor
  · intro h
    rcases mem_padLeftL h with h2 | h2
    · exact absurd h2 (by decide)
    · rcases mem_fmtFixedL h2 with h3 | h3 | h3
      · exact absurd h3 (by decide)
      · exact absurd h3 (by decide)
      · exact h3.2
  · intro hneg
    apply mem_padLeftL_of_mem
    rw [fmtFixedL, if_pos hneg]
    exact List.mem_cons_self _ _

/-- The unsigned fixed renderings end in a point followed by exactly `p`
digit characters. -/
lemma unsignedFmt_frac (w p : Nat) (v : ℚ) (hp : 1 ≤ p) :
    ∃ pre frac, padLeftL '0' w (fmtFixedL p v) = pre ++ '.' :: frac
      ∧ frac.length = p ∧ ∀ c ∈ frac, c.isDigit = true := by
  refine ⟨List.replicate (w - (fmtFixedL p v).length) '0' ++
    (if v.num < 0 then ['-'] else []) ++ digits (fixedScaled p v / 10 ^ p),
    padLeftL '0' p (digits (fixedScaled p v % 10 ^ p)), ?_, ?_, ?_⟩
  · rw [padLeftL, fmtFixedL, fmtMagL_eq]
    by_cases hneg : v.num < 0 <;> simp [hneg]
  · exact padLeftL_digits_length_eq hp (Nat.mod_lt _ (Nat.pos_pow_of_pos p (by norm_num)))
  · intro c hc
    exact mem_padLeftL_digits_isDigit hc

/-- The unsigned fixed renderings have exact width `w` for non-negative
values whose rounded scaled magnitude has at most `w - p - 1` integer
digits. -/
lemma unsignedFmt_exact_length (w p : Nat) (v : ℚ) (hp : 1 ≤ p)
    (hw : p + 2 ≤ w) (h0 : 0 ≤ v.num)
    (hip : fixedScaled p v / 10 ^ p < 10 ^ (w - p - 1)) :
    (padLeftL '0' w (fmtFixedL p v)).length = w := by
  rw [padLeftL_length, fmtFixedL, if_neg (by omega), fmtMagL_length _ hp]
  have := digits_length_le hip (by omega)
  omega

lemma signedFixedL_eq (w p : Nat) (q : ℚ) :
    signedFixedL w p q = (if q.num < 0 then '-' else '+') ::
      padLeftL '0' (w - 1) (fmtMagL p q) := rfl

/-- The signed fixed renderings (`{:+0w.p}`): exact width `w` when the
rounded scaled magnitude has at most `w - p - 2` integer digits. -/
lemma signedFixedL_exact_length (w p : Nat) (q : ℚ) (hp : 1 ≤ p)
    (hw : p + 3 ≤ w)
    (hip : fixedScaled p q / 10 ^ p < 10 ^ (w - p - 2)) :
    (signedFixedL w p q).length = w := by
  rw [signedFixedL_eq]
  simp only [List.length_cons]
  rw [padLeftL_length, fmtMagL_length _ hp]
  have := digits_length_le hip (by omega)
  omega

/-- The signed fixed renderings start with an explicit sign. -/
lemma signedFixedL_head (w p : Nat) (q : ℚ) :
    (signedFixedL w p q).head? = some '+' ∨ (signedFixedL w p q).head? = some '-' := by
  rw [signedFixedL_eq]
  by_cases hneg : q.num < 0
  · rw [if_pos hneg]
    exact Or.inr rfl
  · rw [if_neg hneg]
    exact Or.inl rfl

/-- The signed fixed renderings end in a point followed by exactly `p`
digit characters. -/
lemma signedFixedL_frac (w p : Nat) (q : ℚ) (hp : 1 ≤ p) :
    ∃ pre frac, signedFixedL w p q = pre ++ '.' :: frac
      ∧ frac.length = p ∧ ∀ c ∈ frac, c.isDigit = true := by
  refine ⟨(if q.num < 0 then '-' else '+') ::
    (List.replicate (w - 1 - (fmtMagL p q).length) '0' ++ digits (fixedScaled p q / 10 ^ p)),
    padLeftL '0' p (digits (fixedScaled p q % 10 ^ p)), ?_, ?_, ?_⟩
  · rw [signedFixedL_eq, padLeftL, fmtMagL_eq]
    simp
  · exact padLeftL_digits_length_eq hp (Nat.mod_lt _ (Nat.pos_pow_of_pos p (by norm_num)))
  · intro c hc
    exact mem_padLeftL_digits_isDigit hc

/-- Bound transfer: a bound on the magnitude of `q` bounds the rounded
scaled value. -/
lemma fixedScaled_le {p B : Nat} {q : ℚ} (h : q.num.natAbs ≤ B * q.den) :
    fixedScaled p q ≤ B * 10 ^ p := by
  rw [fixedScaled]
  have hden : 0 < q.den := q.pos
  have : 2 * q.num.natAbs * 10 ^ p + q.den < 2 * q.den * (B * 10 ^ p + 1) := by
    have h1 : 2 * q.num.natAbs * 10 ^ p ≤ 2 * (B * q.den) * 10 ^ p := by
      have := Nat.mul_le_mul_right (10 ^ p) (Nat.mul_le_mul_left 2 h)
      omega
    nlinarith
  calc (2 * q.num.natAbs * 10 ^ p + q.den) / (2 * q.den)
      ≤ (2 * q.den * (B * 10 ^ p + 1) - 1) / (2 * q.den) := by
        apply Nat.div_le_div_right
        omega
    _ ≤ B * 10 ^ p := by
        rw [Nat.div_le_iff_le_mul_add_pred (by omega)]
        ring_nf
        omega

/-- Bound transfer from a rational magnitude bound to the numerator. -/
lemma natAbs_le_of_abs_le {q : ℚ} {B : Nat} (h : |q| ≤ (B : ℚ)) :
    q.num.natAbs ≤ B * q.den := by
  have hden : (0:ℚ) < (q.den : ℚ) := by
    exact_mod_cast q.pos
  have hnum : |(q.num : ℚ)| ≤ (B : ℚ) * (q.den : ℚ) := by
    have h2 : |q| * (q.den : ℚ) ≤ (B : ℚ) * (q.den : ℚ) :=
      mul_le_mul_of_nonneg_right h (le_of_lt hden)
    calc |(q.num : ℚ)| = |q * (q.den : ℚ)| := by
          rw [Rat.mul_den_eq_num]
      _ = |q| * (q.den : ℚ) := by
          rw [abs_mul, abs_of_nonneg (le_of_lt hden)]
      _ ≤ (B : ℚ) * (q.den : ℚ) := h2
  have : ((q.num.natAbs : ℚ)) ≤ ((B * q.den : Nat) : ℚ) := by
    push_cast
    calc ((q.num.natAbs : ℚ)) = |(q.num : ℚ)| := by
          rw [Int.cast_natAbs, Int.cast_abs]
      _ ≤ (B : ℚ) * (q.den : ℚ) := hnum
  exact_mod_cast this

lemma as_str_fromStr (s : String) : (ChannelName.fromStr s).as_str = s := by
  rw [ChannelName.fromStr]
  split_ifs <;> simp_all [ChannelName.as_str]

lemma fromStr_custom {s : String} (h : isCanonicalName s = false) :
    ChannelName.fromStr s = .Custom s := by
  rw [isCanonicalName] at h
  simp only [decide_eq_false_iff_not, not_or] at h
  obtain ⟨h1, h2, h3, h4, h5, h6, h7, h8, h9⟩ := h
  rw [ChannelName.fromStr, if_neg h1, if_neg h2, if_neg h3, if_neg h4, if_neg h5,
    if_neg h6, if_neg h7, if_neg h8, if_neg h9]

lemma unit_as_str_fromStr (s : String) : (ChannelUnit.fromStr s).as_str = s := by
  rw [ChannelUnit.fromStr]
  split_ifs <;> simp_all [ChannelUnit.as_str]

lemma unit_fromStr_custom {s : String} (h : isCanonicalUnit s = false) :
    ChannelUnit.fromStr s = .Custom s := by
  rw [isCanonicalUnit] at h
  simp only [decide_eq_false_iff_not, not_or] at h
  obtain ⟨h1, h2⟩ := h
  rw [ChannelUnit.fromStr, if_neg h1, if_neg h2]

lemma display_ok_of_not_time (caps : TimeFmt) {v : ChannelValue}
    (h : v.isTime = false) : ∃ s, v.display caps = .ok s := by
  cases v
  case Time t => simp [ChannelValue.isTime] at h
  all_goals exact ⟨_, rfl⟩

lemma renderRow_time_fail (caps : TimeFmt) {t : Time} {e : FormatCause}
    (hfail : caps.formatTimeValue t = .error e) :
    ∀ (pre : List ChannelValue), (∀ v ∈ pre, v.isTime = false) →
    ∀ (suf : List ChannelValue) (acc : String),
      renderRow caps (pre ++ .Time t :: suf) acc = .error (.IOError .formatterError) := by
  intro pre
  induction pre with
  | nil =>
    intro _ suf acc
    simp [renderRow, ChannelValue.display, hfail]
  | cons v vs ih =>
    intro hall suf acc
    simp only [List.cons_append, renderRow]
    obtain ⟨s, hs⟩ := display_ok_of_not_time caps (hall v (List.mem_cons_self _ _))
    rw [hs]
    exact ih (fun u hu => hall u (List.mem_cons_of_mem _ hu)) suf _

lemma duplicate_iff (w : Writer) (c : Channel) :
    (w.channels.find? (fun c0 => c0.name == c.name)).isSome = true ↔
      ∃ c0 ∈ w.channels, c0.name = c.name := by
  rw [List.find?_isSome]
  simp

/-- C1: `write_to` renders the fixed five-section layout: creation time
1641469669 yields the header line `File created on 06/01/2022 at
11:47:49` followed by a blank line, and the two-channel/one-row document
yields the `[header]` lines `satellites` and `Hello g`, the
`[column names]` line `satellites Hello ` (trailing space after every
name), and the `[data]` line `000 010.000 ` (trailing space after every
value). -/
theorem write_to_end_to_end :
    docHeaderOnly.write_to timeFmtImpl now0 =
      .ok "File created on 06/01/2022 at 11:47:49\n\n[header]\n\n[column names]\n\n\n[data]\n\n"
    ∧ docTwoChannels.write_to timeFmtImpl now0 =
      .ok "File created on 06/01/2022 at 11:47:49\n\n[header]\nsatellites\nHello g\n\n[column names]\nsatellites Hello \n\n[data]\n000 010.000 \n\n" := by
  with_unfolding_all decide

/-- C2: `dms_to_minutes` returns `(d*60 + m + s/60)` with positive sign
for bearings N and W and negative sign for S and E; hence N/W give a
non-negative and S/E a non-positive result for non-negative seconds; and
the Coordinates rendering has an explicit sign, total width 13 and 6
fractional digits. -/
theorem dms_to_minutes_spec : ∀ dms : DMS,
    dms_to_minutes dms =
      ((dms.degrees : ℚ) * 60 + (dms.minutes : ℚ) + dms.seconds / 60) *
        (if dms.bearing = 'N' ∨ dms.bearing = 'W' then 1 else -1)
    ∧ (0 ≤ dms.seconds →
        ((dms.bearing = 'N' ∨ dms.bearing = 'W') → 0 ≤ dms_to_minutes dms)
        ∧ ((dms.bearing = 'S' ∨ dms.bearing = 'E') → dms_to_minutes dms ≤ 0))
    ∧ (0 ≤ dms.seconds → dms.seconds ≤ 60 → dms.degrees ≤ 1000 → dms.minutes ≤ 59 →
        ∀ s : String, ChannelValue.display timeFmtImpl (.Coordinates dms) = .ok s →
          s.length = 13
          ∧ (s.data.head? = some '+' ∨ s.data.head? = some '-')
          ∧ ∃ pre frac, s.data = pre ++ '.' :: frac ∧ frac.length = 6
              ∧ ∀ c ∈ frac, c.isDigit = true) := by
  intro dms
  have hsum : ∀ _h : 0 ≤ dms.seconds,
      0 ≤ (dms.degrees : ℚ) * 60 + (dms.minutes : ℚ) + dms.seconds / 60 := by
    intro h
    have h1 : (0:ℚ) ≤ (dms.degrees : ℚ) * 60 := by positivity
    have h2 : (0:ℚ) ≤ (dms.minutes : ℚ) := by positivity
    have h3 : (0:ℚ) ≤ dms.seconds / 60 := div_nonneg h (by norm_num)
    linarith
  refine ⟨rfl, ?_, ?_⟩
  · intro hs
    constructor
    · intro hb
      rw [dms_to_minutes]
      rw [if_pos hb, mul_one]
      exact hsum hs
    · intro hb
      rw [dms_to_minutes]
      have hb2 : ¬(dms.bearing = 'N' ∨ dms.bearing = 'W') := by
        rcases hb with h | h <;> rw [h] <;> decide
      rw [if_neg hb2]
      have := hsum hs
      nlinarith
  · intro hs0 hs60 hdeg hmin s hdisp
    simp only [ChannelValue.display, Except.ok.injEq] at hdisp
    subst hdisp
    have habs : |dms_to_minutes dms| ≤ ((99999 : Nat) : ℚ) := by
      have hb : |(if dms.bearing = 'N' ∨ dms.bearing = 'W' then (1:ℚ) else -1)| = 1 := by
        split_ifs <;> norm_num
      have hsum2 : (dms.degrees : ℚ) * 60 + (dms.minutes : ℚ) + dms.seconds / 60 ≤ 60060 := by
        have h1 : (dms.degrees : ℚ) ≤ 1000 := by exact_mod_cast hdeg
        have h2 : (dms.minutes : ℚ) ≤ 59 := by exact_mod_cast hmin
        have h3 : dms.seconds / 60 ≤ 1 := by
          rw [div_le_one (by norm_num)]
          linarith
        linarith
      rw [dms_to_minutes]
      rw [abs_mul, hb, mul_one, abs_of_nonneg (hsum hs0)]
      push_cast
      linarith
    have hsc := fixedScaled_le (p := 6) (natAbs_le_of_abs_le habs)
    have hip : fixedScaled 6 (dms_to_minutes dms) / 10 ^ 6 < 10 ^ 5 := by
      have h1 : fixedScaled 6 (dms_to_minutes dms) / 10 ^ 6 ≤ 99999 * 10 ^ 6 / 10 ^ 6 :=
        Nat.div_le_div_right hsc
      rw [Nat.mul_div_cancel _ (by norm_num)] at h1
      omega
    refine ⟨?_, signedFixedL_head 13 6 _, ?_⟩
    · exact signedFixedL_exact_length 13 6 _ (by norm_num) (by norm_num) hip
    · exact signedFixedL_frac 13 6 _ (by norm_num)

/-- Witness for C2 at the coordinate 51°59′5.9838″ N. -/
theorem dms_to_minutes_spec_witness :
    0 ≤ dms_to_minutes { degrees := 51, minutes := 59, seconds := 5.9838, bearing := 'N' }
    ∧ ("+03119.099730" : String).length = 13 := by
  constructor
  · exact ((dms_to_minutes_spec _).2.1 (by norm_num)).1 (Or.inl rfl)
  · exact ((dms_to_minutes_spec
      { degrees := 51, minutes := 59, seconds := 5.9838, bearing := 'N' }).2.2
      (by norm_num) (by norm_num) (by norm_num) (by norm_num)
      "+03119.099730" (by with_unfolding_all decide)).1

/-- C3: the literal per-kind rendering cases. -/
theorem channel_value_literal_cases :
    ChannelValue.display timeFmtImpl (.Satellites 3) = .ok "003"
    ∧ ChannelValue.display timeFmtImpl (.Satellites 31) = .ok "031"
    ∧ ChannelValue.display timeFmtImpl (.Velocity 58.493) = .ok "058.493"
    ∧ ChannelValue.display timeFmtImpl (.Velocity 0.001) = .ok "000.001"
    ∧ ChannelValue.display timeFmtImpl (.Heading 39.40) = .ok "039.40"
    ∧ ChannelValue.display timeFmtImpl (.Heading 293.00) = .ok "293.00"
    ∧ ChannelValue.display timeFmtImpl (.Height 155.06) = .ok "+0155.06"
    ∧ ChannelValue.display timeFmtImpl (.Height (-293.00)) = .ok "-0293.00"
    ∧ ChannelValue.display timeFmtImpl
        (.Coordinates { degrees := 51, minutes := 59, seconds := 5.9838, bearing := 'N' }) =
        .ok "+03119.099730"
    ∧ ChannelValue.display timeFmtImpl
        (.Coordinates { degrees := 51, minutes := 59, seconds := 5.9838, bearing := 'S' }) =
        .ok "-03119.099730" := by
  with_unfolding_all decide

/-- C4 counterexample: the round-trip fails on `Custom "satellites"`,
whose rendered form parses back to the enumerated variant. -/
theorem name_roundtrip_counterexample :
    ChannelName.fromStr ((ChannelName.Custom "satellites").as_str) = ChannelName.Satellites
    ∧ ChannelName.fromStr ((ChannelName.Custom "satellites").as_str) ≠
        ChannelName.Custom "satellites" := by
  decide

/-- C4 (amended): `from_str (as_str x) = x` for every ChannelName that is
not a `Custom` carrying one of the nine canonical strings, and for every
ChannelUnit that is not a `Custom` carrying one of the two canonical
strings. -/
theorem name_roundtrip_amended :
    (∀ x : ChannelName, isShadowedName x = false →
      ChannelName.fromStr x.as_str = x)
    ∧ (∀ u : ChannelUnit, isShadowedUnit u = false →
      ChannelUnit.fromStr u.as_str = u) := by
  constructor
  · intro x hx
    cases x
    case Custom s => exact fromStr_custom hx
    all_goals decide
  · intro u hu
    cases u
    case Custom s => exact unit_fromStr_custom hu
    all_goals decide

/-- Witness for C4 (amended) at an enumerated name and a custom unit. -/
theorem name_roundtrip_amended_witness :
    ChannelName.fromStr (ChannelName.Heading.as_str) = ChannelName.Heading
    ∧ ChannelUnit.fromStr ((ChannelUnit.Custom "ms2").as_str) = ChannelUnit.Custom "ms2" :=
  ⟨name_roundtrip_amended.1 .Heading (by decide),
   name_roundtrip_amended.2 (.Custom "ms2") (by decide)⟩

/-- C5: parsing is total: for every string `s`, rendering the parse of
`s` gives back `s`, and any non-canonical string parses to the `Custom`
variant carrying it verbatim, for names and units alike. -/
theorem parse_total_roundtrip : ∀ s : String,
    (ChannelName.fromStr s).as_str = s
    ∧ (isCanonicalName s = false → ChannelName.fromStr s = .Custom s)
    ∧ (ChannelUnit.fromStr s).as_str = s
    ∧ (isCanonicalUnit s = false → ChannelUnit.fromStr s = .Custom s) := by
  intro s
  exact ⟨as_str_fromStr s, fromStr_custom, unit_as_str_fromStr s, unit_fromStr_custom⟩

/-- Witness for C5 at an unrecognized string. -/
theorem parse_total_roundtrip_witness :
    (ChannelName.fromStr "lean_angle").as_str = "lean_angle"
    ∧ ChannelName.fromStr "lean_angle" = .Custom "lean_angle"
    ∧ ChannelUnit.fromStr "ms2" = .Custom "ms2" :=
  ⟨(parse_total_roundtrip "lean_angle").1,
   (parse_total_roundtrip "lean_angle").2.1 (by decide),
   (parse_total_roundtrip "ms2").2.2.2 (by decide)⟩

/-- C6: `add_channel` on a name collision returns the DuplicateChannel
error carrying the offending name and leaves the whole writer state
unchanged, no matter how often it is repeated; otherwise it appends the
channel at the end of the list. -/
theorem add_channel_duplicate_spec : ∀ (w : Writer) (c : Channel),
    ((∃ c0 ∈ w.channels, c0.name = c.name) →
      w.add_channel c = (.error (.DuplicateChannel c.name), w)
      ∧ ∀ n : Nat, (fun w0 => (Writer.add_channel w0 c).2)^[n] w = w)
    ∧ ((∀ c0 ∈ w.channels, c0.name ≠ c.name) →
      w.add_channel c = (.ok (), { w with channels := w.channels ++ [c] })) := by
  intro w c
  constructor
  · intro hdup
    have hfind : (w.channels.find? (fun c0 => c0.name == c.name)).isSome = true :=
      (duplicate_iff w c).mpr hdup
    have heq : w.add_channel c = (.error (.DuplicateChannel c.name), w) := by
      rw [Writer.add_channel, if_pos hfind]
    refine ⟨heq, ?_⟩
    intro n
    induction n with
    | zero => rfl
    | succ n ih =>
      simp only [Function.iterate_succ_apply]
      rw [heq]
      exact ih
  · intro hnodup
    have hfind : ¬((w.channels.find? (fun c0 => c0.name == c.name)).isSome = true) := by
      intro hsome
      obtain ⟨c0, hc0, he⟩ := (duplicate_iff w c).mp hsome
      exact hnodup c0 hc0 he
    rw [Writer.add_channel, if_neg hfind]

/-- Witness for C6: a rejected duplicate add and an accepted fresh add. -/
theorem add_channel_duplicate_spec_witness :
    docTwoChannels.add_channel { name := .Satellites, unit := some .G } =
      (.error (.DuplicateChannel .Satellites), docTwoChannels)
    ∧ Writer.new.add_channel { name := .Satellites, unit := none } =
      (.ok (), { Writer.new with
        channels := Writer.new.channels ++ [{ name := .Satellites, unit := none }] }) :=
  ⟨((add_channel_duplicate_spec docTwoChannels _).1 (by decide)).1,
   (add_channel_duplicate_spec Writer.new _).2 (by decide)⟩

/-- C7 counterexample: with a channel-value time formatter that fails,
`write_to` on a document whose sample row holds a Time value returns the
I/O error kind produced by the formatter-error conversion, not the
time-format kind, and the underlying cause is gone. -/
theorem time_value_error_counterexample :
    docWithTime.write_to capsTimeFail now0 = .error (.IOError .formatterError)
    ∧ resultIsTimeFormat (docWithTime.write_to capsTimeFail now0) = false := by
  constructor <;> decide

/-- C7 (amended): a date or header-time formatting failure is returned
as the distinct time-format error kind preserving the underlying cause,
but a Time-kind channel value's formatting failure in a sample row is
converted to the information-free formatter error and surfaces as the
I/O error kind, without the cause. -/
theorem time_format_error_paths :
    (∀ (caps : TimeFmt) (w : Writer) (now : OffsetDateTime) (e : FormatCause),
      caps.formatDate (w.file_creation_time.getD now).date = .error e →
      w.write_to caps now = .error (.TimeFormatError e))
    ∧ (∀ (caps : TimeFmt) (w : Writer) (now : OffsetDateTime) (d : String) (e : FormatCause),
      caps.formatDate (w.file_creation_time.getD now).date = .ok d →
      caps.formatTimeHeader (w.file_creation_time.getD now).time = .error e →
      w.write_to caps now = .error (.TimeFormatError e))
    ∧ (∀ (caps : TimeFmt) (w : Writer) (now : OffsetDateTime) (t : Time) (e : FormatCause)
        (pre suf : List ChannelValue) (rest : List (List ChannelValue)),
      (∀ v ∈ pre, v.isTime = false) →
      w.samples = (pre ++ .Time t :: suf) :: rest →
      caps.formatTimeValue t = .error e →
      (∃ ds, caps.formatDate (w.file_creation_time.getD now).date = .ok ds) →
      (∃ ts, caps.formatTimeHeader (w.file_creation_time.getD now).time = .ok ts) →
      w.write_to caps now = .error (.IOError .formatterError)) := by
  refine ⟨?_, ?_, ?_⟩
  · intro caps w now e h
    rw [Writer.write_to, h]
  · intro caps w now d e hd ht
    rw [Writer.write_to, hd, ht]
  · intro caps w now t e pre suf rest hpre hsamp hfail hdok htok
    obtain ⟨ds, hds⟩ := hdok
    obtain ⟨ts0, hts⟩ := htok
    rw [Writer.write_to, hds, hts, hsamp]
    have hr := renderRow_time_fail caps hfail pre hpre suf
    simp only [renderRows, hr]

/-- Witness for C7 (amended): the three paths at concrete documents. -/
theorem time_format_error_paths_witness :
    docWithTime.write_to capsDateFail now0 = .error (.TimeFormatError { msg := "bad date" })
    ∧ docWithTime.write_to capsHeaderTimeFail now0 =
        .error (.TimeFormatError { msg := "bad time" })
    ∧ docWithTime.write_to capsTimeFail now0 = .error (.IOError .formatterError) :=
  ⟨time_format_error_paths.1 capsDateFail docWithTime now0 _ rfl,
   time_format_error_paths.2.1 capsHeaderTimeFail docWithTime now0 _ _ rfl rfl,
   time_format_error_paths.2.2 capsTimeFail docWithTime now0
     { hour := 12, minute := 0, second := 0, nano := 0 } { msg := "invalid component" }
     [] [] [] (by simp) rfl rfl ⟨_, rfl⟩ ⟨_, rfl⟩⟩

/-- C8 counterexample: the Velocity rendering is not always width 7 and
can contain a sign character: a large payload widens the field and a
negative payload brings a `-`. -/
theorem velocity_width_counterexample :
    ChannelValue.display timeFmtImpl (.Velocity 10000) = .ok "10000.000"
    ∧ ("10000.000" : String).length ≠ 7
    ∧ ChannelValue.display timeFmtImpl (.Velocity (-1)) = .ok "0-1.000"
    ∧ '-' ∈ ("0-1.000" : String).data := by
  refine ⟨by with_unfolding_all decide, by decide, by with_unfolding_all decide, by decide⟩

/-- C8 (amended): for every payload, Velocity renders with 3 fractional
digits and zero-padding to a minimum width of 7; `+` never appears and
`-` appears exactly when the payload is negative; the width is exactly 7
when the payload is non-negative and its rounded 3-digit magnitude is at
most 999.999.  Heading likewise with 2 fractional digits and width 6,
exactly 6 when non-negative and rounding to at most 999.99. -/
theorem velocity_heading_format_spec : ∀ v : ℚ,
    (∀ s : String, ChannelValue.display timeFmtImpl (.Velocity v) = .ok s →
      7 ≤ s.length
      ∧ '+' ∉ s.data
      ∧ ('-' ∈ s.data ↔ v.num < 0)
      ∧ (∃ pre frac, s.data = pre ++ '.' :: frac ∧ frac.length = 3
          ∧ ∀ c ∈ frac, c.isDigit = true)
      ∧ (0 ≤ v.num → fixedScaled 3 v ≤ 999999 → s.length = 7))
    ∧ (∀ s : String, ChannelValue.display timeFmtImpl (.Heading v) = .ok s →
      6 ≤ s.length
      ∧ '+' ∉ s.data
      ∧ ('-' ∈ s.data ↔ v.num < 0)
      ∧ (∃ pre frac, s.data = pre ++ '.' :: frac ∧ frac.length = 2
          ∧ ∀ c ∈ frac, c.isDigit = true)
      ∧ (0 ≤ v.num → fixedScaled 2 v ≤ 99999 → s.length = 6)) := by
  intro v
  constructor
  · intro s hdisp
    simp only [ChannelValue.display, Except.ok.injEq] at hdisp
    subst hdisp
    refine ⟨unsignedFmt_min_length 7 3 v, unsignedFmt_no_plus 7 3 v,
      unsignedFmt_minus_iff 7 3 v, unsignedFmt_frac 7 3 v (by norm_num), ?_⟩
    intro h0 hb
    apply unsignedFmt_exact_length 7 3 v (by norm_num) (by norm_num) h0
    have h1 : fixedScaled 3 v / 10 ^ 3 ≤ 999999 / 10 ^ 3 := Nat.div_le_div_right hb
    norm_num at h1 ⊢
    omega
  · intro s hdisp
    simp only [ChannelValue.display, Except.ok.injEq] at hdisp
    subst hdisp
    refine ⟨unsignedFmt_min_length 6 2 v, unsignedFmt_no_plus 6 2 v,
      unsignedFmt_minus_iff 6 2 v, unsignedFmt_frac 6 2 v (by norm_num), ?_⟩
    intro h0 hb
    apply unsignedFmt_exact_length 6 2 v (by norm_num) (by norm_num) h0
    have h1 : fixedScaled 2 v / 10 ^ 2 ≤ 99999 / 10 ^ 2 := Nat.div_le_div_right hb
    norm_num at h1 ⊢
    omega

/-- Witness for C8 (amended) at the spec's own literal payloads. -/
theorem velocity_heading_format_spec_witness :
    7 ≤ ("058.493" : String).length ∧ ("293.00" : String).length = 6 :=
  ⟨((velocity_heading_format_spec 58.493).1 "058.493" (by with_unfolding_all decide)).1,
   ((velocity_heading_format_spec 293).2 "293.00"
     (by with_unfolding_all decide)).2.2.2.2
     (by with_unfolding_all decide) (by with_unfolding_all decide)⟩

/-- C9: `write_to` reads the document only (its type takes the document
immutably and returns only the rendered output), and it is
deterministic: identical document state and identical injected "now"
give byte-identical output; when a creation time is set the "now"
argument is not consulted at all. -/
theorem write_to_deterministic :
    (∀ (caps : TimeFmt) (w1 w2 : Writer) (now1 now2 : OffsetDateTime),
      w1 = w2 → now1 = now2 → w1.write_to caps now1 = w2.write_to caps now2)
    ∧ (∀ (caps : TimeFmt) (w : Writer) (t : OffsetDateTime) (now1 now2 : OffsetDateTime),
      w.file_creation_time = some t → w.write_to caps now1 = w.write_to caps now2) := by
  constructor
  · intro caps w1 w2 now1 now2 h1 h2
    subst h1
    subst h2
    rfl
  · intro caps w t now1 now2 h
    rw [Writer.write_to, Writer.write_to, h]
    simp only [Option.getD_some]

/-- Witness for C9: equal state gives equal output, and with a creation
time set the output does not depend on the injected "now". -/
theorem write_to_deterministic_witness :
    Writer.new.write_to timeFmtImpl now0 = Writer.new.write_to timeFmtImpl now0
    ∧ docHeaderOnly.write_to timeFmtImpl now0 =
        docHeaderOnly.write_to timeFmtImpl (fromUnixTimestamp 86400) :=
  ⟨write_to_deterministic.1 timeFmtImpl Writer.new Writer.new now0 now0 rfl rfl,
   write_to_deterministic.2 timeFmtImpl docHeaderOnly (fromUnixTimestamp 1641469669)
     now0 (fromUnixTimestamp 86400) rfl⟩

/-- C10: channel-name uniqueness is structural: `Custom "satellites"` is
a distinct name from `Satellites`, both adds succeed, the channel list
holds both, and the serialized `[column names]` line shows the same text
twice. -/
theorem structural_name_uniqueness :
    ChannelName.Custom "satellites" ≠ ChannelName.Satellites
    ∧ (docHeaderOnly.add_channel { name := .Satellites, unit := none }).1 = .ok ()
    ∧ ((docHeaderOnly.add_channel { name := .Satellites, unit := none }).2.add_channel
        { name := .Custom "satellites", unit := none }).1 = .ok ()
    ∧ docShadow.channels = [{ name := .Satellites, unit := none },
        { name := .Custom "satellites", unit := none }]
    ∧ docShadow.write_to timeFmtImpl now0 =
      .ok "File created on 06/01/2022 at 11:47:49\n\n[header]\nsatellites\nsatellites\n\n[column names]\nsatellites satellites \n\n[data]\n\n" := by
  decide

end Vbo
